import Mathlib

/-!
Verification of the frame pipeline and GPU buffer layer of the MoteurCustom
engine (namespace `lve` in the C++ sources), as a shallow embedding in Lean.

Machine integers (`VkDeviceSize` = uint64) are modelled as `Nat` with explicit
reduction modulo `2^64` wherever the C++ arithmetic can wrap.  Functions that
`assert` model the assertion failure as `Option.none`.  Memory operations are
modelled by the byte range they touch.
-/

namespace lve

/-- `2^64`, the modulus of `VkDeviceSize` (uint64) arithmetic. -/
def U64 : Nat := 2 ^ 64

/-- Bitwise AND of the low `n` bits of `x` and `y`, by structural recursion on
the bit count (kernel-reducible, unlike `Nat.land`). -/
def land64Aux : Nat → Nat → Nat → Nat
  | 0, _, _ => 0
  | n + 1, x, y => (if x % 2 = 1 ∧ y % 2 = 1 then 1 else 0) + 2 * land64Aux n (x / 2) (y / 2)

/-- 64-bit bitwise AND (`x & y` on `VkDeviceSize`). -/
def land64 (x y : Nat) : Nat := land64Aux 64 x y

/-- 64-bit bitwise complement (`~x` on `VkDeviceSize`), for `x < 2^64`. -/
def compl64 (x : Nat) : Nat := (U64 - 1) - x

/-- `LveBuffer::getAlignment`: returns `(instanceSize + minOffsetAlignment - 1)
& ~(minOffsetAlignment - 1)` when `minOffsetAlignment > 0`, else `instanceSize`
(lve_buffer.cpp lines 8-13). -/
def getAlignment (instanceSize minOffsetAlignment : Nat) : Nat :=
  if 0 < minOffsetAlignment then
    land64 ((instanceSize + minOffsetAlignment - 1) % U64) (compl64 (minOffsetAlignment - 1))
  else instanceSize

/-- The state of an `LveBuffer` relevant to the byte-range layer: the Vulkan
handles and the device reference are omitted, `mapped` records whether the
mapped pointer is non-null. -/
structure LveBuffer where
  mapped : Bool
  bufferSize : Nat
  instanceCount : Nat
  instanceSize : Nat
  alignmentSize : Nat
  usageFlags : Nat
  memoryPropertyFlags : Nat
deriving DecidableEq, Repr

/-- The `LveBuffer` constructor (lve_buffer.cpp lines 15-19):
`alignmentSize = getAlignment(instanceSize, minOffsetAlignment)`,
`bufferSize = alignmentSize * instanceCount` in uint64 arithmetic. -/
def mkLveBuffer (instanceSize instanceCount usageFlags memoryPropertyFlags minOffsetAlignment : Nat) : LveBuffer :=
  let a := getAlignment instanceSize minOffsetAlignment
  { mapped := false
    bufferSize := a * instanceCount % U64
    instanceCount := instanceCount
    instanceSize := instanceSize
    alignmentSize := a
    usageFlags := usageFlags
    memoryPropertyFlags := memoryPropertyFlags }

/-- `LveBuffer::map`: a successful `vkMapMemory` makes `mapped` non-null. -/
def map (b : LveBuffer) : LveBuffer := { b with mapped := true }

/-- A byte range `[offset, offset + size)` of the buffer memory, as carried by
a `VkMappedMemoryRange` or touched by a `memcpy`. -/
structure MemRange where
  offset : Nat
  size : Nat
deriving DecidableEq, Repr

/-- `VK_WHOLE_SIZE = ~0ULL`. -/
def VK_WHOLE_SIZE : Nat := U64 - 1

/-- `LveBuffer::writeToBuffer` (lve_buffer.cpp lines 39-49): asserts `mapped`
(modelled as `none` when unmapped, so no copy happens); with
`size == VK_WHOLE_SIZE` it copies `bufferSize` bytes to the start of the
mapped region, otherwise `size` bytes at `offset`. -/
def writeToBuffer (b : LveBuffer) (size offset : Nat) : Option MemRange :=
  if b.mapped then
    if size = VK_WHOLE_SIZE then some ⟨0, b.bufferSize⟩
    else some ⟨offset, size⟩
  else none

/-- `LveBuffer::flush` (lve_buffer.cpp lines 51-58): flushes the mapped memory
range `[offset, offset + size)`. -/
def flush (b : LveBuffer) (size offset : Nat) : MemRange := ⟨offset, size⟩

/-- `LveBuffer::invalidate` (lve_buffer.cpp lines 60-67): invalidates the
mapped memory range `[offset, offset + size)`. -/
def invalidate (b : LveBuffer) (size offset : Nat) : MemRange := ⟨offset, size⟩

/-- `VkDescriptorBufferInfo{buffer, offset, size}` as returned by
`LveBuffer::descriptorInfo` (the buffer handle is omitted). -/
structure VkDescriptorBufferInfo where
  offset : Nat
  range : Nat
deriving DecidableEq, Repr

/-- `LveBuffer::descriptorInfo` (lve_buffer.cpp lines 69-71). -/
def descriptorInfo (b : LveBuffer) (size offset : Nat) : VkDescriptorBufferInfo := ⟨offset, size⟩

/-- `LveBuffer::writeToIndex` (lve_buffer.cpp lines 73-75):
`writeToBuffer(data, instanceSize, index * alignmentSize)`. -/
def writeToIndex (b : LveBuffer) (index : Nat) : Option MemRange :=
  writeToBuffer b b.instanceSize (index * b.alignmentSize % U64)

/-- `LveBuffer::flushIndex` (lve_buffer.cpp lines 77-79):
`flush(alignmentSize, index * alignmentSize)`. -/
def flushIndex (b : LveBuffer) (index : Nat) : MemRange :=
  flush b b.alignmentSize (index * b.alignmentSize % U64)

/-- `LveBuffer::descriptorInfoForIndex` (lve_buffer.cpp lines 81-83):
`descriptorInfo(alignmentSize, index * alignmentSize)`. -/
def descriptorInfoForIndex (b : LveBuffer) (index : Nat) : VkDescriptorBufferInfo :=
  descriptorInfo b b.alignmentSize (index * b.alignmentSize % U64)

/-- `LveBuffer::invalidateIndex` (lve_buffer.cpp lines 85-87):
`invalidate(alignmentSize, index * alignmentSize)`. -/
def invalidateIndex (b : LveBuffer) (index : Nat) : MemRange :=
  invalidate b b.alignmentSize (index * b.alignmentSize % U64)

/-- `LveBuffer::getAlignmentSize` (lve_buffer.hpp line 131): the accessor
returns `instanceSize`, not the `alignmentSize` member. -/
def getAlignmentSize (b : LveBuffer) : Nat := b.instanceSize

/-- `LveBuffer::getInstanceSize` (lve_buffer.hpp line 125). -/
def getInstanceSize (b : LveBuffer) : Nat := b.instanceSize

/-- `LveBuffer::getBufferSize` (lve_buffer.hpp line 149). -/
def getBufferSize (b : LveBuffer) : Nat := b.bufferSize

/-- Two byte ranges are disjoint when one ends at or before the other starts. -/
def disjointRanges (r s : MemRange) : Prop :=
  r.offset + r.size ≤ s.offset ∨ s.offset + s.size ≤ r.offset

/-- The state of an `LveSwapChain` relevant to `compareSwapFormats` (the
formats, the extent and the image count; `VkFormat` values are numeric codes). -/
structure LveSwapChain where
  swapChainImageFormat : Nat
  swapChainDepthFormat : Nat
  swapChainExtentWidth : Nat
  swapChainExtentHeight : Nat
  imageCount : Nat
deriving DecidableEq, Repr

/-- `LveSwapChain::compareSwapFormats` (lve_swap_chain.hpp line 106):
`swapChain.swapChainDepthFormat == swapChainDepthFormat &&
swapChain.swapChainImageFormat == swapChainImageFormat`. -/
def compareSwapFormats (self other : LveSwapChain) : Bool :=
  (other.swapChainDepthFormat == self.swapChainDepthFormat) &&
  (other.swapChainImageFormat == self.swapChainImageFormat)

/-- `LveSwapChain::MAX_FRAMES_IN_FLIGHT = 2` (lve_swap_chain.hpp line 20). -/
def MAX_FRAMES_IN_FLIGHT : Nat := 2

/-- The present-step outcomes distinguished by the frame pipeline
(`VK_SUCCESS`, `VK_SUBOPTIMAL_KHR`, `VK_ERROR_OUT_OF_DATE_KHR`). -/
inductive PresentOutcome where
  | success
  | suboptimal
  | outOfDate
deriving DecidableEq, Repr

/-- Modelled from the spec: the body of `LveSwapChain::submitCommandBuffers`
is not among the repository sources (only its declaration at
lve_swap_chain.hpp line 127 is); per the spec it advances
`currentFrame = (currentFrame + 1) mod MAX_FRAMES_IN_FLIGHT` unconditionally
after submission, regardless of the present outcome. -/
def submitAdvanceFrame (currentFrame : Nat) (outcome : PresentOutcome) : Nat :=
  (currentFrame + 1) % MAX_FRAMES_IN_FLIGHT

/-- The `currentFrame` counter after a sequence of submissions, each with its
own present outcome, starting from `currentFrame`. -/
def frameAfter (currentFrame : Nat) : List PresentOutcome → Nat
  | [] => currentFrame
  | outcome :: rest => frameAfter (submitAdvanceFrame currentFrame outcome) rest

/-- The state of an `LveRenderer` relevant to its accessors (command-buffer
handles are numeric codes). -/
structure LveRenderer where
  commandBuffers : List Nat
  currentImageIndex : Nat
  currentFrameIndex : Nat
  isFrameStarted : Bool
deriving DecidableEq, Repr

/-- `LveRenderer::getCurrentCommandBuffer` (lve_renderer.hpp line 56): asserts
`isFrameStarted` (modelled as `none`), then returns
`commandBuffers[currentFrameIndex]`. -/
def getCurrentCommandBuffer (r : LveRenderer) : Option Nat :=
  if r.isFrameStarted then some (r.commandBuffers.getD r.currentFrameIndex 0) else none

/-- `LveRenderer::getFrameIndex` (lve_renderer.hpp line 62): asserts
`isFrameStarted` (modelled as `none`), then returns `currentFrameIndex`. -/
def getFrameIndex (r : LveRenderer) : Option Nat :=
  if r.isFrameStarted then some r.currentFrameIndex else none

/-! ### Arithmetic facts about the 64-bit AND used by `getAlignment` -/

theorem U64_eq : U64 = 2 ^ 64 := rfl

theorem land64Aux_lt : ∀ n x y, land64Aux n x y < 2 ^ n
  | 0, _, _ => by simp [land64Aux]
  | n + 1, x, y => by
    have ih := land64Aux_lt n (x / 2) (y / 2)
    have h2 : 2 ^ (n + 1) = 2 * 2 ^ n := by ring
    simp only [land64Aux]
    split <;> omega

theorem land64Aux_le_right : ∀ n x y, land64Aux n x y ≤ y
  | 0, _, y => Nat.zero_le y
  | n + 1, x, y => by
    have ih := land64Aux_le_right n (x / 2) (y / 2)
    simp only [land64Aux]
    split <;> omega

theorem land64Aux_add_compl : ∀ n x z, x < 2 ^ n → z < 2 ^ n →
    land64Aux n x z + land64Aux n x (2 ^ n - 1 - z) = x
  | 0, x, z => by
    intro hx hz
    simp only [land64Aux]
    omega
  | n + 1, x, z => by
    intro hx hz
    have h2 : 2 ^ (n + 1) = 2 * 2 ^ n := by ring
    have hx' : x / 2 < 2 ^ n := by omega
    have hz' : z / 2 < 2 ^ n := by omega
    have ih := land64Aux_add_compl n (x / 2) (z / 2) hx' hz'
    have hc : (2 ^ (n + 1) - 1 - z) / 2 = 2 ^ n - 1 - z / 2 := by omega
    have hc2 : (2 ^ (n + 1) - 1 - z) % 2 = 1 - z % 2 := by omega
    simp only [land64Aux, hc]
    rcases Nat.mod_two_eq_zero_or_one x with h1 | h1 <;>
      rcases Nat.mod_two_eq_zero_or_one z with hz2 | hz2 <;>
        simp only [h1, hz2, hc2] <;> simp <;> omega

theorem land64Aux_pow2 : ∀ n k x, k ≤ n → x < 2 ^ n →
    land64Aux n x (2 ^ n - 2 ^ k) = x / 2 ^ k * 2 ^ k
  | 0, k, x => by
    intro hk hx
    have hk0 : k = 0 := Nat.le_zero.mp hk
    subst hk0
    simp only [land64Aux]
    omega
  | n + 1, 0, x => by
    intro hk hx
    have h2 : 2 ^ (n + 1) = 2 * 2 ^ n := by ring
    have ih := land64Aux_pow2 n 0 (x / 2) (Nat.zero_le n) (by omega)
    have hyd : (2 ^ (n + 1) - 2 ^ 0) / 2 = 2 ^ n - 2 ^ 0 := by
      simp only [pow_zero] at *; omega
    have hy2 : (2 ^ (n + 1) - 2 ^ 0) % 2 = 1 := by
      simp only [pow_zero] at *
      have h1 : (0:Nat) < 2 ^ n := Nat.pos_pow_of_pos n (by norm_num)
      omega
    simp only [land64Aux, hyd, hy2]
    simp only [pow_zero] at *
    rcases Nat.mod_two_eq_zero_or_one x with h1 | h1 <;> simp only [h1] <;> simp <;> omega
  | n + 1, k + 1, x => by
    intro hk hx
    have h2 : 2 ^ (n + 1) = 2 * 2 ^ n := by ring
    have hpk : 2 ^ (k + 1) = 2 * 2 ^ k := by ring
    have hk' : k ≤ n := by omega
    have hkn : 2 ^ k ≤ 2 ^ n := Nat.pow_le_pow_right (by norm_num) hk'
    have ih := land64Aux_pow2 n k (x / 2) hk' (by omega)
    have hy2 : (2 ^ (n + 1) - 2 ^ (k + 1)) % 2 = 0 := by omega
    have hyd : (2 ^ (n + 1) - 2 ^ (k + 1)) / 2 = 2 ^ n - 2 ^ k := by omega
    have hdd : x / 2 / 2 ^ k = x / 2 ^ (k + 1) := by
      rw [Nat.div_div_eq_div_mul]
      congr 1
      ring
    simp only [land64Aux, hyd, hy2]
    simp only [ih, hdd]
    have hne : ¬ (x % 2 = 1 ∧ (0:Nat) = 1) := by omega
    rw [if_neg hne]
    rw [hpk]
    ring

theorem getAlignment_lt (s m : Nat) (hm : 0 < m) : getAlignment s m < U64 := by
  simp only [getAlignment, if_pos hm]
  exact land64Aux_lt 64 _ _

theorem getAlignment_ge (s m : Nat) (hm : m < U64) (hov : s + m ≤ U64) :
    s ≤ getAlignment s m := by
  by_cases hm0 : 0 < m
  · simp only [getAlignment, if_pos hm0]
    have hxlt : s + m - 1 < 2 ^ 64 := by rw [← U64_eq]; omega
    rw [U64_eq] at *
    rw [Nat.mod_eq_of_lt hxlt]
    have hz : m - 1 < 2 ^ 64 := by omega
    have hpart := land64Aux_add_compl 64 (s + m - 1) (m - 1) hxlt hz
    have hle := land64Aux_le_right 64 (s + m - 1) (m - 1)
    have hc : compl64 (m - 1) = 2 ^ 64 - 1 - (m - 1) := by
      simp only [compl64, U64_eq]
    rw [land64, hc]
    omega
  · simp only [getAlignment, if_neg hm0]
    exact le_refl s

theorem getAlignment_pow2 (s k : Nat) (hk : k < 64) (hov : s + 2 ^ k ≤ U64) :
    getAlignment s (2 ^ k) = (s + 2 ^ k - 1) / 2 ^ k * 2 ^ k := by
  have hm0 : 0 < 2 ^ k := Nat.pos_pow_of_pos k (by norm_num)
  simp only [getAlignment, if_pos hm0]
  have hxlt : s + 2 ^ k - 1 < 2 ^ 64 := by rw [← U64_eq]; omega
  rw [U64_eq, Nat.mod_eq_of_lt hxlt]
  have hc : compl64 (2 ^ k - 1) = 2 ^ 64 - 2 ^ k := by
    simp only [compl64, U64_eq]
    omega
  rw [land64, hc]
  exact land64Aux_pow2 64 k (s + 2 ^ k - 1) (le_of_lt hk) hxlt

/-! ### Unfolding facts for the buffer constructor and the indexed operations -/

theorem mkLveBuffer_alignmentSize (s n u p m : Nat) :
    (mkLveBuffer s n u p m).alignmentSize = getAlignment s m := rfl

theorem mkLveBuffer_bufferSize (s n u p m : Nat) :
    (mkLveBuffer s n u p m).bufferSize = getAlignment s m * n % U64 := rfl

theorem mkLveBuffer_instanceSize (s n u p m : Nat) :
    (mkLveBuffer s n u p m).instanceSize = s := rfl

theorem mkLveBuffer_instanceCount (s n u p m : Nat) :
    (mkLveBuffer s n u p m).instanceCount = n := rfl

/-- When the whole allocation `alignmentSize * instanceCount` fits in 64 bits,
the offset computation `index * alignmentSize` of the indexed operations does
not wrap for any index below `instanceCount`. -/
theorem indexOffset_eq (s n m i : Nat) (hbuf : getAlignment s m * n ≤ U64)
    (hi : i < n) : i * getAlignment s m % U64 = i * getAlignment s m := by
  set A := getAlignment s m with hA
  by_cases hA0 : A = 0
  · have hU : 0 < U64 := by norm_num [U64]
    simp [hA0, Nat.mod_eq_of_lt hU]
  · have h1 : i + 1 ≤ n := hi
    have h2 : (i + 1) * A ≤ n * A := Nat.mul_le_mul_right A h1
    have h3 : i * A + A = (i + 1) * A := by ring
    have h5 : n * A = A * n := by ring
    have hApos : 0 < A := Nat.pos_of_ne_zero hA0
    exact Nat.mod_eq_of_lt (by omega)

/-- `writeToIndex` on a mapped buffer writes `instanceSize` bytes at offset
`index * alignmentSize`, whenever `instanceSize` does not collide with the
`VK_WHOLE_SIZE` sentinel and the allocation fits in 64 bits. -/
theorem writeToIndex_eq (s n u p m i : Nat) (hs : s ≠ VK_WHOLE_SIZE)
    (hbuf : getAlignment s m * n ≤ U64) (hi : i < n) :
    writeToIndex (map (mkLveBuffer s n u p m)) i
      = some ⟨i * getAlignment s m, s⟩ := by
  have hoff := indexOffset_eq s n m i hbuf hi
  simp [writeToIndex, writeToBuffer, map, mkLveBuffer, hs, hoff]

/-- `flushIndex` flushes `alignmentSize` bytes at offset
`index * alignmentSize` (no wrap under the same side conditions). -/
theorem flushIndex_eq (s n u p m i : Nat)
    (hbuf : getAlignment s m * n ≤ U64) (hi : i < n) :
    flushIndex (mkLveBuffer s n u p m) i
      = ⟨i * getAlignment s m, getAlignment s m⟩ := by
  have hoff := indexOffset_eq s n m i hbuf hi
  simp [flushIndex, flush, mkLveBuffer, hoff]

/-- `descriptorInfoForIndex` covers `alignmentSize` bytes at offset
`index * alignmentSize` (no wrap under the same side conditions). -/
theorem descriptorInfoForIndex_eq (s n u p m i : Nat)
    (hbuf : getAlignment s m * n ≤ U64) (hi : i < n) :
    descriptorInfoForIndex (mkLveBuffer s n u p m) i
      = ⟨i * getAlignment s m, getAlignment s m⟩ := by
  have hoff := indexOffset_eq s n m i hbuf hi
  simp [descriptorInfoForIndex, descriptorInfo, mkLveBuffer, hoff]

/-- `invalidateIndex` invalidates `alignmentSize` bytes at offset
`index * alignmentSize` (no wrap under the same side conditions). -/
theorem invalidateIndex_eq (s n u p m i : Nat)
    (hbuf : getAlignment s m * n ≤ U64) (hi : i < n) :
    invalidateIndex (mkLveBuffer s n u p m) i
      = ⟨i * getAlignment s m, getAlignment s m⟩ := by
  have hoff := indexOffset_eq s n m i hbuf hi
  simp [invalidateIndex, invalidate, mkLveBuffer, hoff]

/-! ### The claims -/

/-- Claim C1, counterexample: with `instanceSize = 68`, `instanceCount = 3`,
`minOffsetAlignment = 64`, `flushIndex` at index 0 flushes the byte range
`[0, 128)` — `alignmentSize` bytes — not the claimed `[0, instanceSize) = [0, 68)`,
so the flushed range does extend into the alignment padding. -/
theorem flushIndex_size_not_instanceSize :
    flushIndex (mkLveBuffer 68 3 0 0 64) 0 = ⟨0, 128⟩ ∧
    (mkLveBuffer 68 3 0 0 64).instanceSize = 68 ∧
    (flushIndex (mkLveBuffer 68 3 0 0 64) 0).size
      ≠ (mkLveBuffer 68 3 0 0 64).instanceSize := by
  decide

/-- Claim C1, amended: for every buffer and every index `i < instanceCount`
(with the allocation fitting in 64 bits and `instanceSize` below the
`VK_WHOLE_SIZE` sentinel), `writeToIndex` writes exactly
`[i * alignedInstanceSize, i * alignedInstanceSize + instanceSize)`, while
`flushIndex`, `descriptorInfoForIndex` and `invalidateIndex` apply their
operations to the full aligned stride
`[i * alignedInstanceSize, (i + 1) * alignedInstanceSize)`, which extends
through the alignment padding. -/
theorem indexed_ops_ranges (s n u p m i : Nat) (hs : s < VK_WHOLE_SIZE)
    (hbuf : getAlignment s m * n ≤ U64) (hi : i < n) :
    writeToIndex (map (mkLveBuffer s n u p m)) i
      = some ⟨i * getAlignment s m, s⟩ ∧
    flushIndex (mkLveBuffer s n u p m) i
      = ⟨i * getAlignment s m, getAlignment s m⟩ ∧
    descriptorInfoForIndex (mkLveBuffer s n u p m) i
      = ⟨i * getAlignment s m, getAlignment s m⟩ ∧
    invalidateIndex (mkLveBuffer s n u p m) i
      = ⟨i * getAlignment s m, getAlignment s m⟩ :=
  ⟨writeToIndex_eq s n u p m i (Nat.ne_of_lt hs) hbuf hi,
   flushIndex_eq s n u p m i hbuf hi,
   descriptorInfoForIndex_eq s n u p m i hbuf hi,
   invalidateIndex_eq s n u p m i hbuf hi⟩

/-- Claim C1, witness: the amended theorem applied to the concrete buffer
`instanceSize = 68`, `instanceCount = 3`, `minOffsetAlignment = 64` at
index 1. -/
theorem indexed_ops_ranges_witness :
    (68 < VK_WHOLE_SIZE ∧ getAlignment 68 64 * 3 ≤ U64 ∧ 1 < 3) ∧
    (writeToIndex (map (mkLveBuffer 68 3 0 0 64)) 1
        = some ⟨1 * getAlignment 68 64, 68⟩ ∧
      flushIndex (mkLveBuffer 68 3 0 0 64) 1
        = ⟨1 * getAlignment 68 64, getAlignment 68 64⟩ ∧
      descriptorInfoForIndex (mkLveBuffer 68 3 0 0 64) 1
        = ⟨1 * getAlignment 68 64, getAlignment 68 64⟩ ∧
      invalidateIndex (mkLveBuffer 68 3 0 0 64) 1
        = ⟨1 * getAlignment 68 64, getAlignment 68 64⟩) :=
  ⟨⟨by decide, by decide, by decide⟩,
   indexed_ops_ranges 68 3 0 0 64 1 (by decide) (by decide) (by decide)⟩

/-- Claim C2, counterexample: the constructor rounds with the bit trick
`(instanceSize + minOffsetAlignment - 1) & ~(minOffsetAlignment - 1)`, which
is not the ceiling multiple for a non-power-of-two alignment: with
`instanceSize = 1`, `minOffsetAlignment = 3` it yields 1, which is neither a
multiple of 3 nor `ceil(1 / 3) * 3 = 3`. -/
theorem getAlignment_non_pow2_cex :
    getAlignment 1 3 = 1 ∧
    getAlignment 1 3 % 3 ≠ 0 ∧
    getAlignment 1 3 ≠ (1 + 3 - 1) / 3 * 3 := by
  decide

/-- Claim C2, amended: for every `instanceSize` and every power-of-two
`minOffsetAlignment = 2 ^ k` (Vulkan offset alignments are powers of two),
with no 64-bit overflow, the constructor computes
`alignedInstanceSize = ceil(instanceSize / minOffsetAlignment) * minOffsetAlignment`
— hence it is a multiple of the alignment, is at least `instanceSize`, and is
below `instanceSize + minOffsetAlignment` — and allocates
`bufferSize = alignedInstanceSize * instanceCount` bytes. -/
theorem constructor_alignment_pow2 (s n u p k : Nat) (hk : k < 64)
    (hov : s + 2 ^ k ≤ U64) (hbuf : getAlignment s (2 ^ k) * n < U64) :
    (mkLveBuffer s n u p (2 ^ k)).alignmentSize
      = (s + 2 ^ k - 1) / 2 ^ k * 2 ^ k ∧
    (mkLveBuffer s n u p (2 ^ k)).alignmentSize % 2 ^ k = 0 ∧
    s ≤ (mkLveBuffer s n u p (2 ^ k)).alignmentSize ∧
    (mkLveBuffer s n u p (2 ^ k)).alignmentSize < s + 2 ^ k ∧
    (mkLveBuffer s n u p (2 ^ k)).bufferSize
      = (mkLveBuffer s n u p (2 ^ k)).alignmentSize * n := by
  have hmpos : 0 < 2 ^ k := Nat.pos_pow_of_pos k (by norm_num)
  have hmlt : 2 ^ k < U64 := by
    rw [U64_eq]
    exact Nat.pow_lt_pow_right (by norm_num) hk
  have halign := getAlignment_pow2 s k hk hov
  rw [mkLveBuffer_alignmentSize, mkLveBuffer_bufferSize]
  refine ⟨halign, ?_, ?_, ?_, ?_⟩
  · rw [halign]
    exact Nat.mul_mod_left _ _
  · exact getAlignment_ge s (2 ^ k) hmlt hov
  · rw [halign]
    have h1 : (s + 2 ^ k - 1) / 2 ^ k * 2 ^ k ≤ s + 2 ^ k - 1 :=
      Nat.div_mul_le_self _ _
    omega
  · exact Nat.mod_eq_of_lt hbuf

/-- Claim C2, witness: the amended theorem applied to `instanceSize = 68`,
`minOffsetAlignment = 2 ^ 6 = 64`, `instanceCount = 3`. -/
theorem constructor_alignment_pow2_witness :
    (6 < 64 ∧ 68 + 2 ^ 6 ≤ U64 ∧ getAlignment 68 (2 ^ 6) * 3 < U64) ∧
    ((mkLveBuffer 68 3 0 0 (2 ^ 6)).alignmentSize
        = (68 + 2 ^ 6 - 1) / 2 ^ 6 * 2 ^ 6 ∧
      (mkLveBuffer 68 3 0 0 (2 ^ 6)).alignmentSize % 2 ^ 6 = 0 ∧
      68 ≤ (mkLveBuffer 68 3 0 0 (2 ^ 6)).alignmentSize ∧
      (mkLveBuffer 68 3 0 0 (2 ^ 6)).alignmentSize < 68 + 2 ^ 6 ∧
      (mkLveBuffer 68 3 0 0 (2 ^ 6)).bufferSize
        = (mkLveBuffer 68 3 0 0 (2 ^ 6)).alignmentSize * 3) :=
  ⟨⟨by decide, by decide, by decide⟩,
   constructor_alignment_pow2 68 3 0 0 6 (by decide) (by decide) (by decide)⟩

/-- Claim C3: for every buffer and all distinct indices `i ≠ j` below
`instanceCount` (with the allocation fitting in 64 bits), the byte ranges
written by `writeToIndex` at `i` and at `j` are disjoint. -/
theorem writeToIndex_ranges_disjoint (s n u p m i j : Nat)
    (hm : m < U64) (hov : s + m ≤ U64)
    (hbuf : getAlignment s m * n ≤ U64)
    (hi : i < n) (hj : j < n) (hij : i ≠ j) (ri rj : MemRange)
    (hri : writeToIndex (map (mkLveBuffer s n u p m)) i = some ri)
    (hrj : writeToIndex (map (mkLveBuffer s n u p m)) j = some rj) :
    disjointRanges ri rj := by
  have hsA : s ≤ getAlignment s m := getAlignment_ge s m hm hov
  have hn2 : 2 ≤ n := by omega
  have hAn : getAlignment s m * 2 ≤ getAlignment s m * n :=
    Nat.mul_le_mul_left _ hn2
  have hUbig : 4 ≤ U64 := by norm_num [U64]
  have hs : s ≠ VK_WHOLE_SIZE := by
    intro hcontra
    rw [VK_WHOLE_SIZE] at hcontra
    omega
  have hwi := writeToIndex_eq s n u p m i hs hbuf hi
  have hwj := writeToIndex_eq s n u p m j hs hbuf hj
  have hri' : ri = ⟨i * getAlignment s m, s⟩ :=
    Option.some.inj (hri.symm.trans hwi)
  have hrj' : rj = ⟨j * getAlignment s m, s⟩ :=
    Option.some.inj (hrj.symm.trans hwj)
  subst hri' hrj'
  rcases lt_or_gt_of_ne hij with h | h
  · left
    show i * getAlignment s m + s ≤ j * getAlignment s m
    calc i * getAlignment s m + s
        ≤ i * getAlignment s m + getAlignment s m := by omega
      _ = (i + 1) * getAlignment s m := by ring
      _ ≤ j * getAlignment s m := Nat.mul_le_mul_right _ h
  · right
    show j * getAlignment s m + s ≤ i * getAlignment s m
    calc j * getAlignment s m + s
        ≤ j * getAlignment s m + getAlignment s m := by omega
      _ = (j + 1) * getAlignment s m := by ring
      _ ≤ i * getAlignment s m := Nat.mul_le_mul_right _ h

/-- Claim C3, witness: the disjointness theorem applied to the concrete
buffer `instanceSize = 68`, `instanceCount = 3`, `minOffsetAlignment = 64`
at indices 0 and 1, whose written ranges are `[0, 68)` and `[128, 196)`. -/
theorem writeToIndex_ranges_disjoint_witness :
    disjointRanges ⟨0, 68⟩ ⟨128, 68⟩ :=
  writeToIndex_ranges_disjoint 68 3 0 0 64 0 1 (by decide) (by decide)
    (by decide) (by decide) (by decide) (by decide) ⟨0, 68⟩ ⟨128, 68⟩
    (by decide) (by decide)

/-- Claim C8: with `instanceSize = 68`, `minOffsetAlignment = 64` and
`instanceCount = 3` the constructor computes `alignedInstanceSize = 128` and
`bufferSize = 384`, and `writeToIndex(data, 1)` on the mapped buffer writes
exactly the byte range `[128, 196)` (offset 128, 68 bytes). -/
theorem concrete_scenario_68_64_3 :
    (mkLveBuffer 68 3 0 0 64).alignmentSize = 128 ∧
    (mkLveBuffer 68 3 0 0 64).bufferSize = 384 ∧
    writeToIndex (map (mkLveBuffer 68 3 0 0 64)) 1 = some ⟨128, 68⟩ ∧
    (writeToIndex (map (mkLveBuffer 68 3 0 0 64)) 1).map
        (fun r => r.offset + r.size) = some 196 := by
  decide

/-- Claim C9: `getAlignmentSize()` returns `instanceSize` rather than the
computed `alignmentSize`; whenever the alignment makes `alignmentSize` exceed
`instanceSize`, the accessor disagrees with the stride actually used by the
indexed operations, which all place index 1 at offset `alignmentSize`. -/
theorem getAlignmentSize_disagrees_with_stride (s n u p m : Nat)
    (hlt : s < getAlignment s m) :
    getAlignmentSize (mkLveBuffer s n u p m) = s ∧
    (mkLveBuffer s n u p m).alignmentSize = getAlignment s m ∧
    getAlignmentSize (mkLveBuffer s n u p m)
      ≠ (mkLveBuffer s n u p m).alignmentSize ∧
    (writeToIndex (map (mkLveBuffer s n u p m)) 1).map MemRange.offset
      = some (getAlignment s m) ∧
    (flushIndex (mkLveBuffer s n u p m) 1).offset = getAlignment s m ∧
    (descriptorInfoForIndex (mkLveBuffer s n u p m) 1).offset
      = getAlignment s m ∧
    (invalidateIndex (mkLveBuffer s n u p m) 1).offset = getAlignment s m := by
  have hm0 : 0 < m := by
    rcases Nat.eq_zero_or_pos m with h0 | h0
    · subst h0
      simp [getAlignment] at hlt
    · exact h0
  have hAlt : getAlignment s m < U64 := getAlignment_lt s m hm0
  have hoff : 1 * getAlignment s m % U64 = getAlignment s m := by
    rw [one_mul]
    exact Nat.mod_eq_of_lt hAlt
  have hs : s ≠ VK_WHOLE_SIZE := by
    rw [VK_WHOLE_SIZE]
    omega
  have hmod : getAlignment s m % U64 = getAlignment s m := Nat.mod_eq_of_lt hAlt
  refine ⟨rfl, rfl, Nat.ne_of_lt hlt, ?_, ?_, ?_, ?_⟩
  · simp [writeToIndex, writeToBuffer, map, mkLveBuffer, hs, hmod]
  · simp [flushIndex, flush, mkLveBuffer, hmod]
  · simp [descriptorInfoForIndex, descriptorInfo, mkLveBuffer, hmod]
  · simp [invalidateIndex, invalidate, mkLveBuffer, hmod]

/-- Claim C9, witness: the mismatch theorem applied to the concrete buffer
`instanceSize = 68`, `instanceCount = 3`, `minOffsetAlignment = 64`, where
the accessor reports 68 but the stride is 128. -/
theorem getAlignmentSize_disagrees_with_stride_witness :
    (68 < getAlignment 68 64) ∧
    (getAlignmentSize (mkLveBuffer 68 3 0 0 64) = 68 ∧
      (mkLveBuffer 68 3 0 0 64).alignmentSize = getAlignment 68 64 ∧
      getAlignmentSize (mkLveBuffer 68 3 0 0 64)
        ≠ (mkLveBuffer 68 3 0 0 64).alignmentSize ∧
      (writeToIndex (map (mkLveBuffer 68 3 0 0 64)) 1).map MemRange.offset
        = some (getAlignment 68 64) ∧
      (flushIndex (mkLveBuffer 68 3 0 0 64) 1).offset = getAlignment 68 64 ∧
      (descriptorInfoForIndex (mkLveBuffer 68 3 0 0 64) 1).offset
        = getAlignment 68 64 ∧
      (invalidateIndex (mkLveBuffer 68 3 0 0 64) 1).offset
        = getAlignment 68 64) :=
  ⟨by decide, getAlignmentSize_disagrees_with_stride 68 3 0 0 64 (by decide)⟩

/-- Claim C5: `writeToBuffer` performs a copy only when the buffer is mapped
— when unmapped the assertion fires (modelled as `none`) and no byte range is
written; when mapped the copy covers the whole buffer for `VK_WHOLE_SIZE`
and `[offset, offset + size)` otherwise. -/
theorem writeToBuffer_requires_mapped (b : LveBuffer) (size offset : Nat) :
    (b.mapped = false → writeToBuffer b size offset = none) ∧
    (b.mapped = true →
      writeToBuffer b size offset
        = some (if size = VK_WHOLE_SIZE then ⟨0, b.bufferSize⟩
                else ⟨offset, size⟩)) := by
  constructor <;> intro hmap
  · simp [writeToBuffer, hmap]
  · simp [writeToBuffer, hmap]
    split <;> rfl

/-- Claim C5, witness: the mapped-precondition theorem applied to an
unmapped and to a mapped concrete buffer. -/
theorem writeToBuffer_requires_mapped_witness :
    writeToBuffer ⟨false, 384, 3, 68, 128, 0, 0⟩ 4 8 = none ∧
    writeToBuffer ⟨true, 384, 3, 68, 128, 0, 0⟩ 4 8 = some ⟨8, 4⟩ := by
  refine ⟨(writeToBuffer_requires_mapped ⟨false, 384, 3, 68, 128, 0, 0⟩ 4 8).1 rfl, ?_⟩
  have h := (writeToBuffer_requires_mapped ⟨true, 384, 3, 68, 128, 0, 0⟩ 4 8).2 rfl
  rwa [if_neg (by decide)] at h

/-- Claim C10: on a mapped buffer, `writeToBuffer` with `size = VK_WHOLE_SIZE`
copies `bufferSize` bytes from the start of the mapped region and ignores the
`offset` argument entirely; with an explicit size the offset takes effect. -/
theorem writeToBuffer_whole_size_ignores_offset (b : LveBuffer)
    (offset offset' size : Nat) (hb : b.mapped = true)
    (hsize : size ≠ VK_WHOLE_SIZE) :
    writeToBuffer b VK_WHOLE_SIZE offset = some ⟨0, b.bufferSize⟩ ∧
    writeToBuffer b VK_WHOLE_SIZE offset
      = writeToBuffer b VK_WHOLE_SIZE offset' ∧
    writeToBuffer b size offset = some ⟨offset, size⟩ := by
  refine ⟨?_, ?_, ?_⟩ <;> simp [writeToBuffer, hb, hsize]

/-- Claim C10, witness: the whole-size theorem applied to a mapped concrete
buffer with two different offsets. -/
theorem writeToBuffer_whole_size_ignores_offset_witness :
    writeToBuffer ⟨true, 384, 3, 68, 128, 0, 0⟩ VK_WHOLE_SIZE 7
      = some ⟨0, 384⟩ ∧
    writeToBuffer ⟨true, 384, 3, 68, 128, 0, 0⟩ VK_WHOLE_SIZE 7
      = writeToBuffer ⟨true, 384, 3, 68, 128, 0, 0⟩ VK_WHOLE_SIZE 9 ∧
    writeToBuffer ⟨true, 384, 3, 68, 128, 0, 0⟩ 4 7 = some ⟨7, 4⟩ :=
  writeToBuffer_whole_size_ignores_offset ⟨true, 384, 3, 68, 128, 0, 0⟩ 7 9 4
    rfl (by decide)

/-- Claim C6: the renderer accessors `getCurrentCommandBuffer` and
`getFrameIndex` assert `isFrameStarted` (modelled as `none` when no frame is
in progress); inside a frame they return the command buffer at
`currentFrameIndex` and `currentFrameIndex` itself. -/
theorem renderer_accessor_contract (r : LveRenderer) :
    (r.isFrameStarted = false →
      getCurrentCommandBuffer r = none ∧ getFrameIndex r = none) ∧
    (r.isFrameStarted = true →
      getCurrentCommandBuffer r
        = some (r.commandBuffers.getD r.currentFrameIndex 0) ∧
      getFrameIndex r = some r.currentFrameIndex) := by
  constructor <;> intro hstate <;>
    simp [getCurrentCommandBuffer, getFrameIndex, hstate]

/-- Claim C6, witness: the accessor-contract theorem applied to a renderer
outside a frame and to one inside a frame at frame index 1. -/
theorem renderer_accessor_contract_witness :
    getCurrentCommandBuffer ⟨[5, 7], 0, 1, false⟩ = none ∧
    getFrameIndex ⟨[5, 7], 0, 1, false⟩ = none ∧
    getCurrentCommandBuffer ⟨[5, 7], 0, 1, true⟩ = some 7 ∧
    getFrameIndex ⟨[5, 7], 0, 1, true⟩ = some 1 := by
  refine ⟨((renderer_accessor_contract ⟨[5, 7], 0, 1, false⟩).1 rfl).1,
    ((renderer_accessor_contract ⟨[5, 7], 0, 1, false⟩).1 rfl).2, ?_,
    ((renderer_accessor_contract ⟨[5, 7], 0, 1, true⟩).2 rfl).2⟩
  have h := ((renderer_accessor_contract ⟨[5, 7], 0, 1, true⟩).2 rfl).1
  simpa using h

/-- Claim C7: `compareSwapFormats` returns true exactly when both the color
image format and the depth format agree; changing only extent or image count
on either chain never changes its result. -/
theorem compareSwapFormats_iff_formats (a b : LveSwapChain)
    (w h c w' h' c' : Nat) :
    (compareSwapFormats a b = true ↔
      (a.swapChainImageFormat = b.swapChainImageFormat ∧
       a.swapChainDepthFormat = b.swapChainDepthFormat)) ∧
    compareSwapFormats
        { a with swapChainExtentWidth := w, swapChainExtentHeight := h,
                 imageCount := c }
        { b with swapChainExtentWidth := w', swapChainExtentHeight := h',
                 imageCount := c' }
      = compareSwapFormats a b := by
  constructor
  · simp only [compareSwapFormats, Bool.and_eq_true, beq_iff_eq]
    constructor
    · rintro ⟨h1, h2⟩
      exact ⟨h2.symm, h1.symm⟩
    · rintro ⟨h1, h2⟩
      exact ⟨h2.symm, h1.symm⟩
  · rfl

/-- Every submission leaves the frame counter below `MAX_FRAMES_IN_FLIGHT`,
so iterating from any in-range start stays in range. -/
theorem frameAfter_eq : ∀ (outcomes : List PresentOutcome) (f : Nat),
    f < MAX_FRAMES_IN_FLIGHT →
    frameAfter f outcomes = (f + outcomes.length) % MAX_FRAMES_IN_FLIGHT
  | [], f => by
    intro hf
    simp only [frameAfter, List.length_nil, Nat.add_zero]
    exact (Nat.mod_eq_of_lt hf).symm
  | o :: rest, f => by
    intro hf
    have hstep : (f + 1) % MAX_FRAMES_IN_FLIGHT < MAX_FRAMES_IN_FLIGHT :=
      Nat.mod_lt _ (by norm_num [MAX_FRAMES_IN_FLIGHT])
    have ih := frameAfter_eq rest ((f + 1) % MAX_FRAMES_IN_FLIGHT) hstep
    simp only [frameAfter, submitAdvanceFrame, List.length_cons]
    rw [ih]
    simp only [MAX_FRAMES_IN_FLIGHT]
    omega

/-- Claim C4: after each submission the frame-in-flight index advances by
exactly one modulo `MAX_FRAMES_IN_FLIGHT`, whatever the present outcome, so
over any sequence of submitted frames it strictly cycles
`0, 1, ..., MAX_FRAMES_IN_FLIGHT - 1, 0, ...` and depends only on how many
frames were submitted, never on which outcomes occurred. -/
theorem frame_index_cycles (f : Nat) (hf : f < MAX_FRAMES_IN_FLIGHT)
    (outcome : PresentOutcome) (outcomes : List PresentOutcome) :
    submitAdvanceFrame f outcome = (f + 1) % MAX_FRAMES_IN_FLIGHT ∧
    frameAfter f outcomes = (f + outcomes.length) % MAX_FRAMES_IN_FLIGHT ∧
    (∀ outcomes' : List PresentOutcome,
      outcomes'.length = outcomes.length →
      frameAfter f outcomes' = frameAfter f outcomes) := by
  refine ⟨rfl, frameAfter_eq outcomes f hf, ?_⟩
  intro outcomes' hlen
  rw [frameAfter_eq outcomes' f hf, frameAfter_eq outcomes f hf, hlen]

/-- Claim C4, witness: starting at frame 0, three submissions with outcomes
out-of-date, suboptimal, success land on frame index `3 mod 2 = 1`, the same
as three all-success submissions. -/
theorem frame_index_cycles_witness :
    (0 < MAX_FRAMES_IN_FLIGHT) ∧
    frameAfter 0 [PresentOutcome.outOfDate, PresentOutcome.suboptimal,
        PresentOutcome.success]
      = (0 + 3) % MAX_FRAMES_IN_FLIGHT ∧
    frameAfter 0 [PresentOutcome.success, PresentOutcome.success,
        PresentOutcome.success]
      = frameAfter 0 [PresentOutcome.outOfDate, PresentOutcome.suboptimal,
          PresentOutcome.success] := by
  refine ⟨by decide, ?_, ?_⟩
  · exact (frame_index_cycles 0 (by decide) PresentOutcome.success _).2.1
  · exact (frame_index_cycles 0 (by decide) PresentOutcome.success _).2.2 _ rfl

end lve
